import Mathlib

/-!
Verification of the Routify transit planner core.

Shallow embedding of the Routify repository (C++ sources under `src/Routify`)
and proofs about the claims on its route-planning core.

Modelling conventions:
* C++ `double` values are modelled as real numbers (`ℝ`).  Coordinate fields,
  which the code only ever compares for equality or feeds into the haversine
  formula, are modelled as rationals (`ℚ`) so that structural operations on
  stations and routes stay computable; they are cast to `ℝ` inside the
  distance function.
* Station codes and other ids are `ℤ` (the code uses `int`, with `-1` as a
  sentinel; no arithmetic overflow is reachable for codes).
* `std::mt19937` draws are modelled by an explicit stream of naturals for
  integer distributions and a stream of reals for `uniform_real_distribution`:
  each `dist(gen)` call consumes one stream element, and an integer draw over
  `[a, b]` yields `a + head % (b - a + 1)`.  This abstracts the
  implementation-defined mapping from raw engine output to distribution
  values while keeping the control flow of the source exact.
* Exceptions (`std::out_of_range` from station lookups) are modelled with
  `Option`: a `none` lookup takes the `catch` path of the source.
-/

namespace Routify

/-- Embedding of `Utilities::Coordinates` (Utilities.hpp).  Latitude/longitude in decimal
degrees; modelled with rational fields (see header comment). -/
structure Coordinates where
  latitude : ℚ
  longitude : ℚ
deriving DecidableEq, Repr

/-- Embedding of `Utilities::Coordinates::isValid` (Utilities.hpp). -/
def Coordinates.isValid (c : Coordinates) : Bool :=
  decide (-90 ≤ c.latitude) && decide (c.latitude ≤ 90) &&
  decide (-180 ≤ c.longitude) && decide (c.longitude ≤ 180)

/-- C library `atan2`, used by the haversine formula. -/
noncomputable def atan2 (y x : ℝ) : ℝ :=
  if 0 < x then Real.arctan (y / x)
  else if x < 0 then
    (if 0 ≤ y then Real.arctan (y / x) + Real.pi else Real.arctan (y / x) - Real.pi)
  else if 0 < y then Real.pi / 2
  else if y < 0 then -(Real.pi / 2)
  else 0

/-- Embedding of `Utilities::calculateHaversineDistance` (Utilities.hpp).  Great-circle
distance in kilometres, Earth radius 6371 km. -/
noncomputable def calculateHaversineDistance (c1 c2 : Coordinates) : ℝ :=
  let lat1 : ℝ := (c1.latitude : ℝ) * Real.pi / 180
  let lon1 : ℝ := (c1.longitude : ℝ) * Real.pi / 180
  let lat2 : ℝ := (c2.latitude : ℝ) * Real.pi / 180
  let lon2 : ℝ := (c2.longitude : ℝ) * Real.pi / 180
  let dLat := lat2 - lat1
  let dLon := lon2 - lon1
  let a := Real.sin (dLat / 2) * Real.sin (dLat / 2) +
    Real.cos lat1 * Real.cos lat2 * Real.sin (dLon / 2) * Real.sin (dLon / 2)
  let c := 2 * atan2 (Real.sqrt a) (Real.sqrt (1 - a))
  6371 * c

/-- Embedding of `Utilities::WALK_SPEED_KPH = 5.0`. -/
def WALK_SPEED_KPH : ℝ := 5

/-- Embedding of `Utilities::ASSUMED_PUBLIC_TRANSPORT_SPEED_KPH = 50.0`. -/
def PUBLIC_TRANSPORT_SPEED_KPH : ℝ := 50

/-- Embedding of `Graph::TransportMethod` (Graph.h). -/
inductive TransportMethod where
  | Bus | Train | LightTrain | Walk
deriving DecidableEq, Repr

/-- Embedding of `Graph::TransportationLine` (Graph.h).  `arrivalTimes` is carried for
completeness but never inspected by the functions the claims concern.
The C++ member `to` is a reserved token in Lean and is rendered `toCode`. -/
structure TransportationLine where
  id : String
  toCode : ℤ
  travelTime : ℝ
  price : ℝ
  type : TransportMethod
  arrivalTimes : List ℤ := []

/-- Embedding of `Graph::Station` (Graph.h).  The `code` field: the Graph.h snapshot in the
repository declares `Station` without a `code` member, while `Route.cpp`,
`Population.cpp` and `RequestHandler.cpp` read `station.code`; the design
notes of the specification (§9, "Duplicated Graph definitions across source
snapshots") record that the consistent shape carries `code`.  We therefore
give `Station` a `code` field, but keep `operator==` exactly as Graph.h
defines it (name and coordinates only). -/
structure Station where
  code : ℤ
  name : String
  coordinates : Coordinates
  lines : List TransportationLine := []

/-- Embedding of `Graph::Station::operator==` (Graph.h lines 43-45): compares `name` and
`coordinates` only. -/
def stationEq (a b : Station) : Bool :=
  decide (a.name = b.name) && decide (a.coordinates = b.coordinates)

/-- The graph's `std::unordered_map<int, Station> _map`, modelled as an
association list of `(code, station)` entries.  `unordered_map` keys are
unique; theorems that rely on this take a `Nodup` hypothesis on the keys. -/
abbrev Graph := List (ℤ × Station)

/-- Embedding of `Graph::getStationById` / `getStationByCode` (Graph.cpp); `none` models
the thrown `std::out_of_range`. -/
def Graph.findStation (g : Graph) (id : ℤ) : Option Station :=
  List.lookup id g

/-- Embedding of `Graph::hasStation` (Graph.cpp). -/
def Graph.hasStation (g : Graph) (id : ℤ) : Bool :=
  (g.findStation id).isSome

/-- Embedding of `Graph::getLinesFrom` (Graph.cpp): a missing station yields the static
empty vector. -/
def Graph.getLinesFrom (g : Graph) (id : ℤ) : List TransportationLine :=
  match g.findStation id with
  | some s => s.lines
  | none => []

/-- Embedding of `Graph::getStationCount` (Graph.cpp). -/
def Graph.getStationCount (g : Graph) : ℕ :=
  g.length

/-- Embedding of `Route::VisitedStation` (Route.h). -/
structure VisitedStation where
  station : Station
  line : TransportationLine
  prevStationCode : ℤ

/-- A `Route` is its `_stations` vector (Route.h). -/
abbrev Route := List VisitedStation

/-- Explicit model of `std::mt19937` draws, see the header comment. -/
structure RNG where
  ints : List ℕ
  reals : List ℝ

/-- One `uniform_int_distribution(0, n-1)` draw. -/
def RNG.nextInt (r : RNG) (n : ℕ) : ℕ × RNG :=
  (r.ints.headD 0 % n, { r with ints := r.ints.tail })

/-- One `uniform_real_distribution(0.0, 1.0)` draw. -/
def RNG.nextReal (r : RNG) : ℝ × RNG :=
  (r.reals.headD 0, { r with reals := r.reals.tail })

/-- Embedding of `isPublicTransport` (anonymous namespace, Route.cpp lines 12-16). -/
def isPublicTransport (m : TransportMethod) : Bool :=
  match m with
  | .Bus => true
  | .Train => true
  | .LightTrain => true
  | .Walk => false

/-- Embedding of `Route::calculateWalkTime` (Route.cpp lines 627-654).  The NaN guards of
the source are vacuous in the real-number model; the remaining branches are
kept verbatim.  `WALK_SPEED_KPH` is the positive constant 5 so its guard is
kept as written. -/
noncomputable def Route.calculateWalkTime (c1 c2 : Coordinates) : ℝ :=
  if ¬ c1.isValid ∨ ¬ c2.isValid then 0
  else
    let dist := calculateHaversineDistance c1 c2
    if dist < 0 then 0
    else if ¬ (0 < WALK_SPEED_KPH) then 0
    else if dist = 0 then 0
    else
      let time := dist / WALK_SPEED_KPH * 60
      if time < 0 then 0 else time

/-- Embedding of `calculateEstimatedSegmentTime` (anonymous namespace, Route.cpp lines
18-48).  `prev = none` models a null `prevStationPtr`. -/
noncomputable def calculateEstimatedSegmentTime (prev : Option Station)
    (vs : VisitedStation) : ℝ :=
  match prev with
  | none => 0
  | some p =>
    let distance := calculateHaversineDistance p.coordinates vs.station.coordinates
    let segmentTime :=
      if vs.line.id = "Walk" ∧ 0 < WALK_SPEED_KPH then
        distance / WALK_SPEED_KPH * 60
      else if isPublicTransport vs.line.type = true ∧ 0 < distance ∧
          0 < PUBLIC_TRANSPORT_SPEED_KPH then
        distance / PUBLIC_TRANSPORT_SPEED_KPH * 60
      else 0
    if segmentTime < 0 then 0 else segmentTime

/-- The loop of `Route::getTotalTime` (Route.cpp lines 73-86): `prev` is the
station the previous iteration ended at. -/
noncomputable def timeLoop : Station → List VisitedStation → ℝ
  | _, [] => 0
  | prev, vs :: rest => calculateEstimatedSegmentTime (some prev) vs + timeLoop vs.station rest

/-- Embedding of `Route::getTotalTime` (Route.cpp lines 57-89). -/
noncomputable def Route.getTotalTime (g : Graph) (routeStartId : ℤ)
    (r : List VisitedStation) : ℝ :=
  match r with
  | [] => 0
  | first :: rest =>
    match g.findStation routeStartId with
    | none => 0
    | some s0 => timeLoop s0 (first :: rest)

/-- The fare table of `Route::getTotalCost` (Route.cpp lines 177-181). -/
noncomputable def fareFromDistance (d : ℝ) : ℝ :=
  if d ≤ 15 then 6
  else if d ≤ 40 then 12.5
  else if d ≤ 120 then 17
  else if d ≤ 225 then 28.5
  else 84.24

/-- The segment loop of `Route::getTotalCost` (Route.cpp lines 123-172);
`i` is the index of `vs` in the full `_stations` vector (the loop starts at
`i = 1`).  Returns the accumulated aerial distance and the
`usedPublicTransport` flag.  A failed station lookup takes the `catch`/
`continue` path. -/
noncomputable def costLoop (g : Graph) (firstStationId : ℤ) :
    ℕ → List VisitedStation → ℝ × Bool
  | _, [] => (0, false)
  | i, vs :: rest =>
    let (d, u) := costLoop g firstStationId (i + 1) rest
    if isPublicTransport vs.line.type then
      let segmentStartId :=
        if vs.prevStationCode = -1 ∧ i = 1 then firstStationId else vs.prevStationCode
      if segmentStartId = -1 then (d, true)
      else if segmentStartId ≠ vs.line.toCode ∧ segmentStartId ≠ -1 ∧
          vs.line.toCode ≠ -1 then
        match g.findStation segmentStartId, g.findStation vs.line.toCode with
        | some s1, some s2 =>
          (d + calculateHaversineDistance s1.coordinates s2.coordinates, true)
        | _, _ => (d, true)
      else (d, true)
    else (d, u)

/-- Embedding of `Route::getTotalCost` (Route.cpp lines 96-182). -/
noncomputable def Route.getTotalCost (g : Graph) (r : List VisitedStation) : ℝ :=
  match r with
  | [] => 0
  | first :: rest =>
    let firstStationId := first.station.code
    if firstStationId = -1 then 0
    else
      let (d, used) := costLoop g firstStationId 1 rest
      if used = false then 0 else fareFromDistance d

/-- One boarding test of `Route::getTransferCount` (Route.cpp lines 195-198). -/
def boardingFlag (prev cur : VisitedStation) : Bool :=
  isPublicTransport cur.line.type &&
    (!(isPublicTransport prev.line.type) || decide (cur.line.id ≠ prev.line.id))

/-- The counting loop of `Route::getTransferCount`: `prev` is `_stations[i-1]`. -/
def countBoardings : VisitedStation → List VisitedStation → ℕ
  | _, [] => 0
  | prev, cur :: rest => (if boardingFlag prev cur then 1 else 0) + countBoardings cur rest

/-- Embedding of `Route::getTransferCount` (Route.cpp lines 185-201). -/
def Route.getTransferCount (r : List VisitedStation) : ℤ :=
  match r with
  | [] => 0
  | [_] => 0
  | a :: b :: rest => max 0 ((countBoardings a (b :: rest) : ℤ) - 1)

/-- The transition checks of `Route::isValid` (Route.cpp lines 246-288), one
conjunct per step `i ≥ 1` (the list argument is `_stations` without its first
element). -/
def transitionsOk (g : Graph) : List VisitedStation → Bool
  | [] => true
  | vs :: rest =>
    (if vs.prevStationCode = -1 then false
     else match g.findStation vs.line.toCode with
      | none => false
      | some st =>
        if stationEq st vs.station then
          if vs.line.id = "Start" ∨ vs.line.id = "Walk" then true
          else if g.hasStation vs.prevStationCode then
            (g.getLinesFrom vs.prevStationCode).any
              (fun l => decide (l.id = vs.line.id) && decide (l.toCode = vs.line.toCode))
          else false
        else false)
    && transitionsOk g rest

/-- Embedding of `Route::isValid` (Route.cpp lines 208-291). -/
def Route.isValid (g : Graph) (startId destinationId : ℤ)
    (r : List VisitedStation) : Bool :=
  match r with
  | [] => false
  | first :: rest =>
    match g.findStation startId with
    | none => false
    | some sStart =>
      if stationEq first.station sStart then
        if first.prevStationCode = -1 then
          match rest with
          | [] => decide (startId = destinationId)
          | r2 :: rest2 =>
            let last := (r2 :: rest2).getLast (List.cons_ne_nil _ _)
            if last.line.toCode = destinationId then
              match g.findStation destinationId with
              | none => false
              | some sDest =>
                if stationEq last.station sDest then transitionsOk g rest
                else false
            else false
        else false
      else false

/-- The raw-walk-time loop of `Route::getFitness` (Route.cpp lines 320-329);
`i` is the index in the full `_stations` vector (the loop starts at 0). -/
noncomputable def walkTimeLoop (g : Graph) (startId : ℤ) :
    ℕ → List VisitedStation → ℝ
  | _, [] => 0
  | i, vs :: rest =>
    (if vs.line.id = "Walk" then
      match (if i = 0 ∨ vs.prevStationCode = -1 then g.findStation startId
             else g.findStation vs.prevStationCode) with
      | some prevSt => Route.calculateWalkTime prevSt.coordinates vs.station.coordinates
      | none => 0
     else 0) + walkTimeLoop g startId (i + 1) rest

/-- Embedding of `std::numeric_limits<double>::epsilon()`. -/
noncomputable def DOUBLE_EPSILON : ℝ := (2 : ℝ) ^ (-52 : ℤ)

/-- Embedding of `std::numeric_limits<double>::max()`. -/
noncomputable def DOUBLE_MAX : ℝ := (2 - (2 : ℝ) ^ (-52 : ℤ)) * (2 : ℝ) ^ (1023 : ℕ)

/-- Embedding of `Route::getFitness` (Route.cpp lines 295-350). -/
noncomputable def Route.getFitness (g : Graph) (startId destinationId : ℤ)
    (userCoords destCoords : Coordinates) (r : List VisitedStation) : ℝ :=
  match r with
  | [] => 0
  | first :: rest =>
    if Route.isValid g startId destinationId (first :: rest) then
      let initialWalkTime := Route.calculateWalkTime userCoords first.station.coordinates
      let lastSt := ((first :: rest).getLast (List.cons_ne_nil _ _)).station
      let finalWalkTime :=
        if lastSt.code = destinationId then Route.calculateWalkTime lastSt.coordinates destCoords
        else match g.findStation destinationId with
          | some s => Route.calculateWalkTime s.coordinates destCoords
          | none => 0
      let totalStationToStationTime := Route.getTotalTime g startId (first :: rest)
      let totalWalkTime := initialWalkTime + finalWalkTime +
        walkTimeLoop g startId 0 (first :: rest)
      let totalCost := Route.getTotalCost g (first :: rest)
      let transfers := Route.getTransferCount (first :: rest)
      let time_weight : ℝ := 1
      let cost_weight : ℝ := 0.1
      let transfer_penalty : ℝ := 45
      let walk_penalty_factor : ℝ := 2
      let baseTime := initialWalkTime + totalStationToStationTime + finalWalkTime
      let score := time_weight * baseTime + (walk_penalty_factor - 1) * totalWalkTime +
        cost_weight * totalCost + (transfers : ℝ) * transfer_penalty
      if score ≤ DOUBLE_EPSILON then DOUBLE_MAX else 1 / score
    else 0

/-- The common-intermediate-station scan of `Route::crossover` (Route.cpp
lines 551-559): all pairs `(i, j)` with `i ∈ [1, len1-1)`, `j ∈ [1, len2-1)`
and `visited1[i].station == visited2[j].station`, in loop order. -/
def commonIndices (visited1 visited2 : List VisitedStation) : List (ℕ × ℕ) :=
  (List.range (visited1.length - 2)).flatMap fun a =>
    (List.range (visited2.length - 2)).filterMap fun b =>
      match visited1[a + 1]?, visited2[b + 1]? with
      | some x, some y => if stationEq x.station y.station then some (a + 1, b + 1) else none
      | _, _ => none

/-- Embedding of `Route::crossover` (Route.cpp lines 540-584); `Population::crossover`
(Population.cpp lines 330-374) is a verbatim copy of the same function. -/
def Route.crossover (parent1 parent2 : List VisitedStation) (gen : RNG) :
    List VisitedStation :=
  if parent1.length ≤ 2 ∨ parent2.length ≤ 2 then parent1
  else
    let common := commonIndices parent1 parent2
    if common.length ≠ 0 then
      let (k, _) := gen.nextInt common.length
      let ij := common.getD k (0, 0)
      parent1.take (ij.1 + 1) ++ parent2.drop (ij.2 + 1)
    else
      let (b, _) := gen.nextInt 2
      if b = 0 then parent1 else parent2

/-- The loop of `Route::generatePathSegment` (Route.cpp lines 367-420), with
the 75-step budget as fuel.  Both the `discrete_distribution` and the
uniform fallback are modelled as one integer draw selecting an element of
`validLines` (see the RNG convention in the header).  The outer value is
`none` for a `return false` path, `some segment` for success. -/
noncomputable def genPathLoop (g : Graph) (destStation : Station) (segmentEndId : ℤ) :
    ℕ → RNG → ℤ → List ℤ → List VisitedStation → Option (List VisitedStation)
  | 0, _, currentCode, _, segment =>
    if currentCode = segmentEndId then some segment else none
  | fuel + 1, gen, currentCode, visitedCodes, segment =>
    if currentCode = segmentEndId then some segment
    else match g.findStation currentCode with
      | none => none
      | some currentStation =>
        let distanceToSegmentEnd :=
          calculateHaversineDistance currentStation.coordinates destStation.coordinates
        if distanceToSegmentEnd < 0.5 then
          let walkingEdge : TransportationLine :=
            ⟨"Walk", segmentEndId, distanceToSegmentEnd / 5 * 60, 0, .Walk, []⟩
          some (segment ++ [⟨destStation, walkingEdge, currentCode⟩])
        else
          let availableLines := g.getLinesFrom currentCode
          if availableLines.isEmpty then none
          else
            let validLines := availableLines.filter fun l =>
              g.hasStation l.toCode && decide (l.toCode ∉ visitedCodes)
            if validLines.isEmpty then none
            else
              let (k, gen2) := gen.nextInt validLines.length
              match validLines[k]? with
              | none => none
              | some chosenLine =>
                match g.findStation chosenLine.toCode with
                | none => none
                | some nextStation =>
                  genPathLoop g destStation segmentEndId fuel gen2 chosenLine.toCode
                    (chosenLine.toCode :: visitedCodes)
                    (segment ++ [⟨nextStation, chosenLine, currentCode⟩])

/-- Embedding of `Route::generatePathSegment` (Route.cpp lines 353-425). -/
noncomputable def Route.generatePathSegment (g : Graph) (gen : RNG)
    (segmentStartId segmentEndId : ℤ) : Option (List VisitedStation) :=
  if g.hasStation segmentStartId ∧ g.hasStation segmentEndId then
    match g.findStation segmentEndId with
    | some destStation =>
      genPathLoop g destStation segmentEndId 75 gen segmentStartId [segmentStartId] []
    | none => none
  else none

/-- Embedding of `Route::mutate` (Route.cpp lines 432-536). -/
noncomputable def Route.mutate (g : Graph) (mutationRate : ℝ)
    (startId destinationId : ℤ) (gen : RNG) (r : List VisitedStation) :
    List VisitedStation :=
  let (p, gen1) := gen.nextReal
  if mutationRate ≤ p then r
  else
    let (roll, gen2) := gen1.nextReal
    if roll < 0.8 ∨ r.length ≤ 3 then
      -- Mutation type 1: regenerate tail segment.
      if r.length ≤ 2 then r
      else
        let (k, gen3) := gen2.nextInt (r.length - 1)
        let restartIndex := 1 + k
        match r[restartIndex - 1]? with
        | none => r
        | some prevVs =>
          match Route.generatePathSegment g gen3 prevVs.station.code destinationId with
          | some newSegment =>
            if newSegment.isEmpty then r
            else r.take restartIndex ++ newSegment
          | none => r
    else if 3 < r.length then
      -- Mutation type 2: walking replacement.
      let maxStartIdx := r.length - 1 - 2
      if maxStartIdx = 0 then r
      else
        let (a, gen3) := gen2.nextInt maxStartIdx
        let idx1 := 1 + a
        let (l, _) := gen3.nextInt 2
        let legsToReplace := 1 + l
        let idx2 := idx1 + legsToReplace
        match r[idx1]?, r[idx2]? with
        | some beforeSegmentVs, some segmentEndVs =>
          let beforeSegmentCode := beforeSegmentVs.prevStationCode
          let segmentEndCode := segmentEndVs.line.toCode
          let walkDist := calculateHaversineDistance
            beforeSegmentVs.station.coordinates segmentEndVs.station.coordinates
          if walkDist < 1.5 then
            let walkTime := walkDist / WALK_SPEED_KPH * 60
            let walkLine : TransportationLine :=
              ⟨"Walk", segmentEndCode, walkTime, 0, .Walk, []⟩
            let walkStep : VisitedStation := ⟨segmentEndVs.station, walkLine, beforeSegmentCode⟩
            r.take (idx1 + 1) ++ [walkStep] ++ r.drop (idx2 + 1)
          else r
        | _, _ => r
    else r

/-- Embedding of `Route::calculateFullJourneyTime` (Route.cpp lines 586-625). -/
noncomputable def Route.calculateFullJourneyTime (g : Graph)
    (routeStartId routeEndId : ℤ) (userCoords destCoords : Coordinates)
    (r : List VisitedStation) : ℝ :=
  let initialWalkTime :=
    match g.findStation routeStartId with
    | some startStation => Route.calculateWalkTime userCoords startStation.coordinates
    | none => 0
  let stationToStationTime := Route.getTotalTime g routeStartId r
  let finalWalkTime :=
    match g.findStation routeEndId with
    | some endStation => Route.calculateWalkTime endStation.coordinates destCoords
    | none => 0
  let iw := if initialWalkTime < 0 then 0 else initialWalkTime
  let st := if stationToStationTime < 0 then 0 else stationToStationTime
  let fw := if finalWalkTime < 0 then 0 else finalWalkTime
  iw + st + fw

/-- A fitness value as the selection comparator sees it: `none` models a NaN
double, `some x` an ordinary value. -/
abbrev Flt := Option ℝ

/-- The comparator of `Population::performSelection` (Population.cpp lines
382-390): NaNs sort last, otherwise descending. -/
noncomputable def fitnessBefore (a b : Flt) : Bool :=
  match b with
  | none => true
  | some fb =>
    match a with
    | none => false
    | some fa => decide (fb < fa)

/-- Insertion of one element wrt a strict boolean comparator (the `std::sort`
contract: `cmp x y` means `x` must come before `y`). -/
def orderedInsertB (cmp : α → α → Bool) (x : α) : List α → List α
  | [] => [x]
  | y :: ys => if cmp x y then x :: y :: ys else y :: orderedInsertB cmp x ys

/-- Comparison sort wrt a strict boolean comparator, modelling `std::sort`
(whose output ordering is characterised by the comparator alone). -/
def sortB (cmp : α → α → Bool) : List α → List α
  | [] => []
  | x :: xs => orderedInsertB cmp x (sortB cmp xs)

/-- Embedding of `Population::performSelection` (Population.cpp lines 378-400),
parametrised by the fitness of each route (the member function computes it
as `route.getFitness(_startId, _destinationId, _graph, ...)` on the
population's immutable context). -/
noncomputable def performSelection (fit : α → Flt) (routes : List α) : List α :=
  if routes.isEmpty then routes
  else
    let sorted := sortB (fun a b => fitnessBefore (fit a) (fit b)) routes
    let keepCount := max 1 ((routes.length + 1) / 2)
    if keepCount < routes.length then sorted.take keepCount else sorted

/-- Embedding of `BfsNode` (anonymous namespace, Population.cpp lines 36-46). -/
structure BfsNode where
  stationCode : ℤ
  parentCode : ℤ
  lineIdFromParent : String
  lineToFromParent : ℤ
deriving DecidableEq, Repr

/-- The neighbour-expansion inner loop of `findPathBFS` (Population.cpp lines
100-107): pushes every unvisited in-graph successor of `c` onto the queue
and records its `BfsNode`.  The visited map is an association list in
insertion order. -/
def expandLines (g : Graph) (c : ℤ) :
    List TransportationLine → List ℤ → List (ℤ × BfsNode) → List ℤ × List (ℤ × BfsNode)
  | [], q, visitedInfo => (q, visitedInfo)
  | line :: rest, q, visitedInfo =>
    if g.hasStation line.toCode && (List.lookup line.toCode visitedInfo).isNone then
      expandLines g c rest (q ++ [line.toCode])
        (visitedInfo ++ [(line.toCode, ⟨line.toCode, c, line.id, line.toCode⟩)])
    else expandLines g c rest q visitedInfo

/-- The search loop of `findPathBFS` (Population.cpp lines 89-113).  The C++
loop pops one queue element per iteration and enqueues each station at most
once, so it performs at most `stationCount + 1` iterations; the fuel passed
by `bfsSearch` covers that.  Returns the visited map at the moment the
destination is popped, `none` when the queue empties (or fuel, which the
C++ loop cannot exhaust, runs out). -/
def bfsLoop (g : Graph) (endCode : ℤ) :
    ℕ → List ℤ → List (ℤ × BfsNode) → Option (List (ℤ × BfsNode))
  | 0, _, _ => none
  | _ + 1, [], _ => none
  | fuel + 1, currentCode :: q, visitedInfo =>
    if currentCode = endCode then some visitedInfo
    else
      let (q2, v2) := expandLines g currentCode (g.getLinesFrom currentCode) q visitedInfo
      bfsLoop g endCode fuel q2 v2

/-- The search phase of `findPathBFS` (Population.cpp lines 69-113): initial
checks, seeding of queue and visited map, and the BFS loop. -/
def bfsSearch (g : Graph) (startCode endCode : ℤ) : Option (List (ℤ × BfsNode)) :=
  if g.hasStation startCode && g.hasStation endCode then
    bfsLoop g endCode (g.getStationCount + 2) [startCode]
      [(startCode, ⟨startCode, -1, "Start", startCode⟩)]
  else none

/-- Embedding of `findLineInGraph` (Population.cpp lines 50-67); `none` models the
returned dummy line with `id = "Error"`. -/
def findLineInGraph (g : Graph) (fromCode : ℤ) (lineId : String) (lineTo : ℤ) :
    Option TransportationLine :=
  (g.getLinesFrom fromCode).find? fun l =>
    decide (l.id = lineId) && decide (l.toCode = lineTo)

/-- The backward path reconstruction of `findPathBFS` (Population.cpp lines
116-150), chasing parent codes from the destination, with an explicit fuel
so that the claimed iteration bound can be stated.  The outer `Option`
records whether the loop exited within the given fuel; the inner value is
the reconstructed path (`none` for the error returns of the source: a
missing visited entry, a failed station lookup, a failed line lookup, or
the `size > stationCount * 2` safety break). -/
def reconstructPath (g : Graph) (visitedInfo : List (ℤ × BfsNode)) (startCode : ℤ) :
    ℕ → ℤ → List VisitedStation → Option (Option (List VisitedStation))
  | 0, traceCode, reversedPath =>
    if traceCode = -1 then some (some reversedPath.reverse) else none
  | fuel + 1, traceCode, reversedPath =>
    if traceCode = -1 then some (some reversedPath.reverse)
    else match List.lookup traceCode visitedInfo with
      | none => some none
      | some nodeInfo =>
        match g.findStation traceCode with
        | none => some none
        | some station =>
          let lineUsed :=
            if nodeInfo.parentCode = -1 then
              some (⟨"Start", startCode, 0, 0, .Walk, []⟩ : TransportationLine)
            else findLineInGraph g nodeInfo.parentCode nodeInfo.lineIdFromParent
              nodeInfo.lineToFromParent
          match lineUsed with
          | none => some none
          | some line =>
            if g.getStationCount * 2 < reversedPath.length + 1 then some none
            else reconstructPath g visitedInfo startCode fuel nodeInfo.parentCode
              (⟨station, line, nodeInfo.parentCode⟩ :: reversedPath)

/-- Embedding of `findPathBFS` (Population.cpp lines 69-154): search then reconstruction.
The reconstruction fuel `stationCount + 5` is the bound the specification
states; claim C7 proves it is never exhausted. -/
def findPathBFS (g : Graph) (startCode endCode : ℤ) : List VisitedStation :=
  match bfsSearch g startCode endCode with
  | none => []
  | some visitedInfo =>
    match reconstructPath g visitedInfo startCode (g.getStationCount + 5) endCode [] with
    | some (some path) => path
    | _ => []

/-- Embedding of `Graph::getNearbyStations` (Graph.cpp lines 88-107).
`maxNearbyDistance = 0.6` (Graph.h line 97). -/
noncomputable def Graph.getNearbyStations (g : Graph) (userCoords : Coordinates) :
    List (ℤ × Station) :=
  let nearbyStations := g.filter fun p =>
    decide (calculateHaversineDistance p.2.coordinates userCoords ≤ 0.6)
  sortB (fun a b =>
    decide (calculateHaversineDistance a.2.coordinates userCoords <
      calculateHaversineDistance b.2.coordinates userCoords)) nearbyStations

/-- Embedding of `BestRouteResult` (RequestHandler.h), as consumed by the decision logic. -/
structure BestRouteResult where
  route : List VisitedStation
  fitness : ℝ
  startStationId : ℤ
  endStationId : ℤ

/-- The response alternatives of `RequestHandler::handleFindRouteCoordinates`
relevant to the walk-vs-transit decision: a direct-walk advisory with its
`reason` string, the no-route status, or a formatted station route (with or
without the long-final-walk warning). -/
inductive RouteResponse where
  | directWalk (reason : String)
  | noRoute
  | routeFound (longFinalWalkWarning : Bool)
deriving DecidableEq, Repr

/-- The post-GA decision logic of `RequestHandler::handleFindRouteCoordinates`
(RequestHandler.cpp lines 158-251): direct-walk versus station route. -/
noncomputable def routeDecision (g : Graph) (userCoords destCoords : Coordinates)
    (bestResultOpt : Option BestRouteResult) : RouteResponse :=
  let directWalkDistance := calculateHaversineDistance userCoords destCoords
  let directWalkTime :=
    if 0 < WALK_SPEED_KPH then directWalkDistance / WALK_SPEED_KPH * 60 else 0
  match bestResultOpt with
  | none =>
    if directWalkDistance < 2 then RouteResponse.directWalk ("No public transport route found")
    else RouteResponse.noRoute
  | some bestResult =>
    let totalStationRouteTime := Route.calculateFullJourneyTime g
      bestResult.startStationId bestResult.endStationId userCoords destCoords
      bestResult.route
    let onlyWalkingInStationRoute :=
      bestResult.route.all fun vs =>
        decide (vs.line.id = "Walk") || decide (vs.line.id = "Start")
    if onlyWalkingInStationRoute ∧ directWalkDistance < 2 then
      RouteResponse.directWalk ("Route involved no public transport")
    else if ¬ onlyWalkingInStationRoute ∧
        directWalkTime < totalStationRouteTime + 5 ∧ directWalkDistance < 2 then
      RouteResponse.directWalk ("Direct walk is faster or comparable")
    else
      let finalWalkDist : ℝ :=
        match g.findStation bestResult.endStationId with
        | some s => calculateHaversineDistance s.coordinates destCoords
        | none => 0
      if 1.5 < finalWalkDist then RouteResponse.routeFound true
      else RouteResponse.routeFound false

/-!
Specification-side definitions.  The following definitions follow the words
of the claims (not the source); each claim theorem compares a source
definition against them.
-/

/-- Claim C4's boarding test at index `i`: the step's mode is public and the
previous step's mode is non-public or its line id differs. -/
def claimBoardingAt (r : List VisitedStation) (i : ℕ) : Bool :=
  match r[i - 1]?, r[i]? with
  | some prev, some cur =>
    isPublicTransport cur.line.type &&
      (!(isPublicTransport prev.line.type) || decide (cur.line.id ≠ prev.line.id))
  | _, _ => false

/-- Claim C4's boarding count: the number of indices `i ≥ 1` at which a
boarding happens. -/
def claimBoardings (r : List VisitedStation) : ℕ :=
  (List.range r.length).countP fun i => decide (1 ≤ i) && claimBoardingAt r i

/-- Claim C1's sum of walk times over internal `Walk` steps: for each step at
index `i ≥ 1` whose line id is `"Walk"`, the walk time from the previous
step's station to this step's station. -/
noncomputable def claimInternalWalkSum : List VisitedStation → ℝ
  | a :: b :: rest =>
    (if b.line.id = "Walk" then
      Route.calculateWalkTime a.station.coordinates b.station.coordinates
     else 0) + claimInternalWalkSum (b :: rest)
  | _ => 0

/-- Claim C1's initial walk time: from the user coordinates to the route's
first station. -/
noncomputable def claimInitialWalk (userCoords : Coordinates)
    (r : List VisitedStation) : ℝ :=
  match r.head? with
  | some first => Route.calculateWalkTime userCoords first.station.coordinates
  | none => 0

/-- Claim C1's final walk time: from the route's last station to the
destination coordinates. -/
noncomputable def claimFinalWalk (destCoords : Coordinates)
    (r : List VisitedStation) : ℝ :=
  match r.getLast? with
  | some last => Route.calculateWalkTime last.station.coordinates destCoords
  | none => 0

/-- Claim C1's score: `base + total_walk + 0.1 * cost + 45 * transfers` with
`base = initial_walk + station_time + final_walk` and
`total_walk = initial_walk + final_walk + Σ walk times over internal Walk
steps`. -/
noncomputable def claimScore (g : Graph) (startId destinationId : ℤ)
    (userCoords destCoords : Coordinates) (r : List VisitedStation) : ℝ :=
  let iw := claimInitialWalk userCoords r
  let fw := claimFinalWalk destCoords r
  let base := iw + Route.getTotalTime g startId r + fw
  let totalWalk := iw + fw + claimInternalWalkSum r
  base + totalWalk + 0.1 * Route.getTotalCost g r +
    45 * (Route.getTransferCount r : ℝ)

/-- Claim C1 as stated: fitness is `1/score` when the route is valid and the
score exceeds machine epsilon, and `0` otherwise. -/
def C1Claim : Prop :=
  ∀ (g : Graph) (startId destinationId : ℤ) (userCoords destCoords : Coordinates)
    (r : List VisitedStation),
    Route.getFitness g startId destinationId userCoords destCoords r =
      if Route.isValid g startId destinationId r = true ∧
          DOUBLE_EPSILON < claimScore g startId destinationId userCoords destCoords r then
        1 / claimScore g startId destinationId userCoords destCoords r
      else 0

/-- A decidable well-formedness condition on the `Walk` steps of a route
(`prev` is the step before the list argument): each `Walk` step's
`prevStationCode` is not `-1` and resolves in the graph to a station with
the previous step's coordinates.  Used as the hypothesis of the amended
claim C1. -/
def walkStepsOk (g : Graph) : VisitedStation → List VisitedStation → Bool
  | _, [] => true
  | prev, vs :: rest =>
    (if vs.line.id = "Walk" then
      decide (vs.prevStationCode ≠ -1) &&
        (match g.findStation vs.prevStationCode with
         | some s => decide (s.coordinates = prev.station.coordinates)
         | none => false)
     else true) && walkStepsOk g vs rest

/-- The hypothesis of the amended claim C1: the first step is not a `Walk`
step and every internal `Walk` step is well formed wrt the graph. -/
def fitnessWalkHyp (g : Graph) (r : List VisitedStation) : Bool :=
  match r with
  | [] => true
  | first :: rest => decide (first.line.id ≠ "Walk") && walkStepsOk g first rest

/-- Claim C2's uniform fallback: one of the two parents, selected by a
uniform draw over two values. -/
def uniformParentChoice (parent1 parent2 : List VisitedStation) (gen : RNG) :
    List VisitedStation :=
  if (gen.nextInt 2).1 = 0 then parent1 else parent2

/-- Claim C2 as stated: with a common intermediate station pair the child is
a prefix of parent 1 glued to a suffix of parent 2 at such a pair, and with
no common pair the result is a parent chosen uniformly at random. -/
def C2Claim : Prop :=
  ∀ (parent1 parent2 : List VisitedStation) (gen : RNG),
    (commonIndices parent1 parent2 ≠ [] →
      ∃ ij ∈ commonIndices parent1 parent2,
        Route.crossover parent1 parent2 gen =
          parent1.take (ij.1 + 1) ++ parent2.drop (ij.2 + 1)) ∧
    (commonIndices parent1 parent2 = [] →
      Route.crossover parent1 parent2 gen = uniformParentChoice parent1 parent2 gen)

/-- Claim C3 as stated: station equality holds iff the codes are equal. -/
def C3Claim : Prop :=
  ∀ s1 s2 : Station, stationEq s1 s2 = true ↔ s1.code = s2.code

/-- Claim C5's aerial distance: the sum over steps at index `i ≥ 1` with a
public-transport line of the haversine distance between the adjacent steps'
stations (the endpoint stations of that segment). -/
noncomputable def claimPublicDistance : List VisitedStation → ℝ
  | a :: b :: rest =>
    (if isPublicTransport b.line.type then
      calculateHaversineDistance a.station.coordinates b.station.coordinates
     else 0) + claimPublicDistance (b :: rest)
  | _ => 0

/-- Whether any step of the route uses a public-transport line. -/
def anyPublicStep (r : List VisitedStation) : Bool :=
  r.any fun vs => isPublicTransport vs.line.type

/-- Whether any segment (step at index `i ≥ 1`) uses a public-transport
line; this is the condition the cost loop of the source actually tests. -/
def anyPublicSegment (r : List VisitedStation) : Bool :=
  r.tail.any fun vs => isPublicTransport vs.line.type

/-- Claim C5 as stated: walk-only routes cost 0, otherwise the banded fare
of the summed public segment distances. -/
def C5Claim : Prop :=
  ∀ (g : Graph) (r : List VisitedStation),
    Route.getTotalCost g r =
      if anyPublicStep r = true then fareFromDistance (claimPublicDistance r) else 0

/-- A decidable well-formedness condition on the public segments of a route
(`prev` is the step before the list argument, `i` its index in the full
route): each public step's resolved endpoint codes are not `-1` and look up
to stations carrying the adjacent steps' coordinates.  Used as the
hypothesis of the amended claim C5. -/
def costStepsOk (g : Graph) (firstStationId : ℤ) :
    ℕ → VisitedStation → List VisitedStation → Bool
  | _, _, [] => true
  | i, prev, vs :: rest =>
    (if isPublicTransport vs.line.type then
      let segStart :=
        if vs.prevStationCode = -1 ∧ i = 1 then firstStationId else vs.prevStationCode
      decide (segStart ≠ -1) && decide (vs.line.toCode ≠ -1) &&
        (match g.findStation segStart, g.findStation vs.line.toCode with
         | some s1, some s2 =>
           decide (s1.coordinates = prev.station.coordinates) &&
             decide (s2.coordinates = vs.station.coordinates)
         | _, _ => false)
     else true) && costStepsOk g firstStationId (i + 1) vs rest

/-- The ordering claim C6 states for the selected population: an entry may
precede another when the latter's fitness is NaN, or both are ordinary
values in descending order. -/
def fitnessLe (a b : Flt) : Prop :=
  b = none ∨ ∃ va vb : ℝ, a = some va ∧ b = some vb ∧ vb ≤ va

/-!
Concrete fixtures used by counterexamples and witnesses.
-/

/-- A transit line used by fixtures. -/
def lineBus10 : TransportationLine := ⟨"10", 7, 0, 0, .Bus, []⟩

/-- A start sentinel line used by fixtures. -/
def lineStart : TransportationLine := ⟨"Start", -1, 0, 0, .Walk, []⟩

/-- A station fixture. -/
def mkStation (code : ℤ) (name : String) : Station :=
  ⟨code, name, ⟨0, 0⟩, []⟩

/-- A visited-step fixture with no meaningful line. -/
def mkStep (code : ℤ) (name : String) : VisitedStation :=
  ⟨mkStation code name, lineStart, -1⟩

/-- Fixture graph for claim C1: one station, code 5. -/
def fixGraphC1 : Graph :=
  [(5, ⟨5, "A", ⟨0, 0⟩, []⟩)]

/-- Fixture route for claim C1: the single-step route staying at station 5;
its score is 0. -/
def fixRouteC1 : List VisitedStation :=
  [⟨⟨5, "A", ⟨0, 0⟩, []⟩, ⟨"Start", 5, 0, 0, .Walk, []⟩, -1⟩]

/-- Fixture parents for the claim C2 counterexample: two steps versus three
steps, no common station. -/
def fixP1 : List VisitedStation := [mkStep 1 "A", mkStep 2 "B"]

/-- Second fixture parent for the claim C2 counterexample. -/
def fixP2 : List VisitedStation := [mkStep 3 "C", mkStep 4 "D", mkStep 5 "E"]

/-- Fixture parents for the claim C2 witness: a common intermediate station
`X` at index 1 of both parents. -/
def fixP1w : List VisitedStation := [mkStep 1 "A", mkStep 9 "X", mkStep 2 "B"]

/-- Second fixture parent for the claim C2 witness. -/
def fixP2w : List VisitedStation := [mkStep 3 "C", mkStep 9 "X", mkStep 4 "D"]

/-- Fixture graph for claim C5: stations 5 and 7. -/
def fixGraphC5 : Graph :=
  [(5, ⟨5, "P", ⟨0, 0⟩, []⟩), (7, ⟨7, "Q", ⟨0, 0⟩, []⟩)]

/-- Fixture route for the claim C5 counterexample: its first station carries
the invalid code `-1`, and its second step rides a bus. -/
def fixRouteC5bad : List VisitedStation :=
  [⟨⟨-1, "A", ⟨0, 0⟩, []⟩, lineStart, -1⟩,
   ⟨⟨7, "B", ⟨0, 0⟩, []⟩, lineBus10, 5⟩]

/-- First step of the claim C5 witness route: the start sentinel at
station 5. -/
def fixStepC5a : VisitedStation :=
  ⟨⟨5, "P", ⟨0, 0⟩, []⟩, ⟨"Start", 5, 0, 0, .Walk, []⟩, -1⟩

/-- Second step of the claim C5 witness route: a bus ride to station 7. -/
def fixStepC5b : VisitedStation :=
  ⟨⟨7, "Q", ⟨0, 0⟩, []⟩, lineBus10, 5⟩

/-- Fixture graph for claim C7: station 1 with a line to station 2. -/
def fixGraphC7 : Graph :=
  [(1, ⟨1, "S1", ⟨0, 0⟩, [⟨"L1", 2, 0, 0, .Bus, []⟩]⟩),
   (2, ⟨2, "S2", ⟨0, 0⟩, []⟩)]

/-- The visited map produced by the BFS search on `fixGraphC7`. -/
def fixVisitedC7 : List (ℤ × BfsNode) :=
  [(1, ⟨1, -1, "Start", 1⟩), (2, ⟨2, 1, "L1", 2⟩)]

/-- The key list of a BFS visited map, in insertion order. -/
def keysOf (v : List (ℤ × BfsNode)) : List ℤ := v.map Prod.fst

/-- The structural invariant of the BFS visited map that drives claim C7:
each entry's parent code either is the sentinel `-1` or was inserted
strictly earlier in the map. -/
inductive Chained : List (ℤ × BfsNode) → Prop where
  | nil : Chained []
  | snoc (v : List (ℤ × BfsNode)) (y : ℤ × BfsNode) :
      Chained v → (y.2.parentCode = -1 ∨ y.2.parentCode ∈ keysOf v) → Chained (v ++ [y])

/-!
Helper lemmas.
-/

theorem atan2_zero_one : atan2 0 1 = 0 := by
  rw [atan2, if_pos one_pos]
  simp [Real.arctan_zero]

theorem hav_self (c : Coordinates) : calculateHaversineDistance c c = 0 := by
  simp only [calculateHaversineDistance, sub_self, zero_div, Real.sin_zero, mul_zero,
    zero_mul, add_zero, zero_add, Real.sqrt_zero, sub_zero, Real.sqrt_one, atan2_zero_one]

theorem calculateWalkTime_self (c : Coordinates) : Route.calculateWalkTime c c = 0 := by
  rw [Route.calculateWalkTime]
  split
  · rfl
  · simp [hav_self]

theorem DOUBLE_EPSILON_pos : 0 < DOUBLE_EPSILON := by
  rw [DOUBLE_EPSILON]; positivity

theorem DOUBLE_MAX_pos : 0 < DOUBLE_MAX := by
  rw [DOUBLE_MAX]
  have h : (2 : ℝ) ^ (-52 : ℤ) < 1 := by
    rw [zpow_neg]
    rw [inv_lt_one_iff₀]
    right
    have : (1 : ℝ) < 2 ^ (52 : ℤ) := one_lt_zpow₀ one_lt_two (by norm_num)
    linarith
  have h2 : (0 : ℝ) < (2 : ℝ) ^ (1023 : ℕ) := by positivity
  nlinarith

theorem stationEq_coords {a b : Station} (h : stationEq a b = true) :
    a.coordinates = b.coordinates := by
  simp only [stationEq, Bool.and_eq_true, decide_eq_true_eq] at h
  exact h.2

theorem stationEq_name {a b : Station} (h : stationEq a b = true) :
    a.name = b.name := by
  simp only [stationEq, Bool.and_eq_true, decide_eq_true_eq] at h
  exact h.1

/-!
Claim C3.  `Graph::Station::operator==` compares name and coordinates, not
codes, so the claim as stated fails; the amended claim replaces "codes equal"
by "names and coordinates equal".
-/

/-- Claim C3, counterexample: two stations with the same name and coordinates
but different codes compare equal, refuting "equal iff codes equal". -/
theorem claim_C3_counterexample : ¬ C3Claim := by
  intro h
  have h12 := (h (mkStation 1 "A") (mkStation 2 "A")).mp (by decide)
  exact absurd h12 (by decide)

/-- Claim C3, amended: for every two `Station` values `s1` and `s2`,
`s1 == s2` holds if and only if `s1`'s name equals `s2`'s name and `s1`'s
coordinates equal `s2`'s coordinates. -/
theorem claim_C3_station_eq (s1 s2 : Station) :
    stationEq s1 s2 = true ↔ s1.name = s2.name ∧ s1.coordinates = s2.coordinates := by
  simp [stationEq]

/-!
Claim C4: the transfer count.
-/

theorem countP_range_pairs (l : List VisitedStation) (a : VisitedStation) :
    (List.range l.length).countP (fun j =>
      match (a :: l)[j]?, l[j]? with
      | some x, some y => boardingFlag x y
      | _, _ => false) = countBoardings a l := by
  induction l generalizing a with
  | nil => simp [countBoardings]
  | cons b rest ih =>
    rw [List.length_cons, List.range_succ_eq_map, List.countP_cons, List.countP_map]
    have hfun : ((fun j => match (a :: b :: rest)[j]?, (b :: rest)[j]? with
          | some x, some y => boardingFlag x y
          | _, _ => false) ∘ Nat.succ)
        = (fun j => match (b :: rest)[j]?, rest[j]? with
          | some x, some y => boardingFlag x y
          | _, _ => false) := by
      funext j
      simp only [Function.comp_apply, Nat.succ_eq_add_one, List.getElem?_cons_succ]
    rw [hfun, ih b]
    cases h : boardingFlag a b <;> simp [countBoardings, h, Nat.add_comm]

theorem claimBoardings_cons2 (a b : VisitedStation) (rest : List VisitedStation) :
    claimBoardings (a :: b :: rest) = countBoardings a (b :: rest) := by
  rw [claimBoardings, List.length_cons, List.range_succ_eq_map, List.countP_cons,
    List.countP_map]
  have hfun : ((fun i => decide (1 ≤ i) && claimBoardingAt (a :: b :: rest) i) ∘ Nat.succ)
      = (fun j => match (a :: b :: rest)[j]?, (b :: rest)[j]? with
          | some x, some y => boardingFlag x y
          | _, _ => false) := by
    funext j
    simp only [Function.comp_apply, claimBoardingAt, boardingFlag, Nat.succ_eq_add_one,
      Nat.add_sub_cancel, List.getElem?_cons_succ]
    cases (a :: b :: rest)[j]? <;> cases (b :: rest)[j]? <;> simp
  rw [hfun, countP_range_pairs (b :: rest) a]
  simp

/-- Claim C4: for every route, `getTransferCount` equals
`max 0 (boardings - 1)` where a boarding is counted at every step `i ≥ 1`
whose line mode is public transport and whose predecessor step has a
non-public mode or a different line id. -/
theorem claim_C4_transfer_count (r : List VisitedStation) :
    Route.getTransferCount r = max 0 ((claimBoardings r : ℤ) - 1) := by
  match r with
  | [] =>
    have h : claimBoardings ([] : List VisitedStation) = 0 := by simp [claimBoardings]
    rw [h]
    show (0 : ℤ) = max 0 ((0 : ℕ) - 1 : ℤ)
    omega
  | [a] =>
    have h : claimBoardings [a] = 0 := by simp [claimBoardings]
    rw [h]
    show (0 : ℤ) = max 0 ((0 : ℕ) - 1 : ℤ)
    omega
  | a :: b :: rest =>
    rw [claimBoardings_cons2]
    rfl

/-!
Claim C10: mutation never touches the first visited step.
-/

theorem head?_take_append (x : VisitedStation) (rest seg : List VisitedStation)
    (n : ℕ) (h : 0 < n) : ((x :: rest).take n ++ seg).head? = some x := by
  match n, h with
  | n + 1, _ => simp

/-- Claim C10: for every route, mutation rate and RNG state, `Route::mutate`
leaves the first visited step unchanged — both mutation operators only
truncate, erase or insert at indices at least 1. -/
theorem claim_C10_mutate_first_step (g : Graph) (mutationRate : ℝ)
    (startId destinationId : ℤ) (gen : RNG) (r : List VisitedStation) :
    (Route.mutate g mutationRate startId destinationId gen r).head? = r.head? := by
  rw [Route.mutate]
  cases r with
  | nil => simp [RNG.nextReal, RNG.nextInt]
  | cons x rest =>
    repeat' first
      | split
      | dsimp only
    all_goals try rfl
    all_goals
      rw [List.head?_cons]
      exact head?_take_append x rest _ _ (by omega)

/-!
Generic lemmas about the boolean-comparator insertion sort used to model
`std::sort`.
-/

theorem orderedInsertB_perm (cmp : α → α → Bool) (x : α) (l : List α) :
    (orderedInsertB cmp x l).Perm (x :: l) := by
  induction l with
  | nil => exact List.Perm.refl _
  | cons y ys ih =>
    rw [orderedInsertB]
    split
    · exact List.Perm.refl _
    · exact (ih.cons y).trans (List.Perm.swap x y ys)

theorem sortB_perm (cmp : α → α → Bool) (l : List α) : (sortB cmp l).Perm l := by
  induction l with
  | nil => exact List.Perm.refl _
  | cons x xs ih => exact (orderedInsertB_perm cmp x (sortB cmp xs)).trans (ih.cons x)

theorem orderedInsertB_pairwise {cmp : α → α → Bool} {le : α → α → Prop}
    (h1 : ∀ a b, cmp a b = true → le a b) (h2 : ∀ a b, cmp a b = false → le b a)
    (ht : ∀ a b c, le a b → le b c → le a c) (x : α) :
    ∀ l : List α, l.Pairwise le → (orderedInsertB cmp x l).Pairwise le := by
  intro l
  induction l with
  | nil =>
    intro _
    simp [orderedInsertB]
  | cons y ys ih =>
    intro hp
    rcases List.pairwise_cons.mp hp with ⟨hy, hys⟩
    rw [orderedInsertB]
    split
    case isTrue hcmp =>
      refine List.pairwise_cons.mpr ⟨?_, hp⟩
      intro z hz
      rcases List.mem_cons.mp hz with rfl | hz2
      · exact h1 _ _ hcmp
      · exact ht _ _ _ (h1 _ _ hcmp) (hy z hz2)
    case isFalse hcmp =>
      have hcmp2 : cmp x y = false := by
        cases h : cmp x y
        · rfl
        · exact absurd h hcmp
      refine List.pairwise_cons.mpr ⟨?_, ih hys⟩
      intro z hz
      have hz2 := (orderedInsertB_perm cmp x ys).mem_iff.mp hz
      rcases List.mem_cons.mp hz2 with rfl | hz3
      · exact h2 _ _ hcmp2
      · exact hy z hz3

theorem sortB_pairwise {cmp : α → α → Bool} {le : α → α → Prop}
    (h1 : ∀ a b, cmp a b = true → le a b) (h2 : ∀ a b, cmp a b = false → le b a)
    (ht : ∀ a b c, le a b → le b c → le a c) (l : List α) :
    (sortB cmp l).Pairwise le := by
  induction l with
  | nil => simp [sortB]
  | cons x xs ih => exact orderedInsertB_pairwise h1 h2 ht x _ ih

/-!
Claim C8: nearby stations.
-/

/-- Claim C8: for every coordinate, `getNearbyStations` returns exactly the
graph entries whose haversine distance to the coordinate is at most 0.6 km,
in ascending order of that distance. -/
theorem claim_C8_nearby_stations (g : Graph) (userCoords : Coordinates) :
    (Graph.getNearbyStations g userCoords).Perm
      (List.filter (fun p =>
        decide (calculateHaversineDistance p.2.coordinates userCoords ≤ 0.6)) g) ∧
    (∀ p : ℤ × Station, p ∈ Graph.getNearbyStations g userCoords ↔
      p ∈ g ∧ calculateHaversineDistance p.2.coordinates userCoords ≤ 0.6) ∧
    (Graph.getNearbyStations g userCoords).Pairwise (fun a b =>
      calculateHaversineDistance a.2.coordinates userCoords ≤
        calculateHaversineDistance b.2.coordinates userCoords) := by
  have hperm : (Graph.getNearbyStations g userCoords).Perm
      (List.filter (fun p =>
        decide (calculateHaversineDistance p.2.coordinates userCoords ≤ 0.6)) g) := by
    rw [Graph.getNearbyStations]
    exact sortB_perm _ _
  refine ⟨hperm, ?_, ?_⟩
  · intro p
    rw [hperm.mem_iff, List.mem_filter]
    simp
  · rw [Graph.getNearbyStations]
    refine sortB_pairwise ?_ ?_ ?_ _
    · intro a b h
      simp only [decide_eq_true_eq] at h
      exact le_of_lt h
    · intro a b h
      simp only [decide_eq_false_iff_not, not_lt] at h
      exact h
    · intro a b c hab hbc
      exact le_trans hab hbc

/-!
Claim C6: selection.
-/

/-- Claim C6: for every population of `n ≥ 1` routes, `performSelection`
sorts by fitness descending with NaN last and keeps exactly
`max 1 ⌈n/2⌉` top routes: the kept routes extend to a permutation of the
input that is entirely ordered by the descending-with-NaN-last relation. -/
theorem claim_C6_selection {α : Type} (fit : α → Flt) (routes : List α)
    (h : routes ≠ []) :
    ∃ rest, (performSelection fit routes ++ rest).Perm routes ∧
      (performSelection fit routes ++ rest).Pairwise
        (fun a b => fitnessLe (fit a) (fit b)) ∧
      (performSelection fit routes).length = max 1 ((routes.length + 1) / 2) := by
  have h1 : ∀ a b : α, fitnessBefore (fit a) (fit b) = true → fitnessLe (fit a) (fit b) := by
    intro a b hc
    cases hb : fit b with
    | none => exact Or.inl rfl
    | some fb =>
      cases ha : fit a with
      | none => simp [fitnessBefore, ha, hb] at hc
      | some fa =>
        simp only [fitnessBefore, ha, hb, decide_eq_true_eq] at hc
        exact Or.inr ⟨fa, fb, rfl, rfl, le_of_lt hc⟩
  have h2 : ∀ a b : α, fitnessBefore (fit a) (fit b) = false → fitnessLe (fit b) (fit a) := by
    intro a b hc
    cases hb : fit b with
    | none => simp [fitnessBefore, hb] at hc
    | some fb =>
      cases ha : fit a with
      | none => exact Or.inl rfl
      | some fa =>
        simp only [fitnessBefore, ha, hb, decide_eq_false_iff_not, not_lt] at hc
        exact Or.inr ⟨fb, fa, rfl, rfl, hc⟩
  have ht : ∀ a b c : α, fitnessLe (fit a) (fit b) → fitnessLe (fit b) (fit c) →
      fitnessLe (fit a) (fit c) := by
    intro a b c hab hbc
    rcases hbc with hc | ⟨vb, vc, hb, hc, hlebc⟩
    · exact Or.inl hc
    · rcases hab with hb2 | ⟨va, vb2, ha, hb2, hleab⟩
      · rw [hb2] at hb
        exact absurd hb (by simp)
      · rw [hb] at hb2
        have : vb2 = vb := by injection hb2.symm
        exact Or.inr ⟨va, vc, ha, hc, le_trans hlebc (this ▸ hleab)⟩
  have hne : routes.isEmpty = false := by
    cases routes
    · exact absurd rfl h
    · rfl
  have hperm0 : (sortB (fun a b => fitnessBefore (fit a) (fit b)) routes).Perm routes :=
    sortB_perm _ _
  have hpair0 : (sortB (fun a b => fitnessBefore (fit a) (fit b)) routes).Pairwise
      (fun a b => fitnessLe (fit a) (fit b)) := sortB_pairwise h1 h2 ht routes
  have hlen0 := hperm0.length_eq
  rw [performSelection, hne]
  simp only [Bool.false_eq_true, if_false]
  by_cases hk : max 1 ((routes.length + 1) / 2) < routes.length
  · rw [if_pos hk]
    refine ⟨(sortB (fun a b => fitnessBefore (fit a) (fit b)) routes).drop
      (max 1 ((routes.length + 1) / 2)), ?_, ?_, ?_⟩
    · rw [List.take_append_drop]
      exact hperm0
    · rw [List.take_append_drop]
      exact hpair0
    · rw [List.length_take]
      omega
  · rw [if_neg hk]
    refine ⟨[], ?_, ?_, ?_⟩
    · rw [List.append_nil]
      exact hperm0
    · rw [List.append_nil]
      exact hpair0
    · have hlen1 : routes.length ≠ 0 := by
        cases routes
        · exact absurd rfl h
        · simp
      omega

/-- Witness for claim C6 at a concrete three-route population. -/
theorem claim_C6_witness :
    (([1, 2, 3] : List ℕ) ≠ []) ∧
    (∃ rest, (performSelection (fun n : ℕ => some (n : ℝ)) [1, 2, 3] ++ rest).Perm
        [1, 2, 3] ∧
      (performSelection (fun n : ℕ => some (n : ℝ)) [1, 2, 3] ++ rest).Pairwise
        (fun a b => fitnessLe ((fun n : ℕ => some (n : ℝ)) a)
          ((fun n : ℕ => some (n : ℝ)) b)) ∧
      (performSelection (fun n : ℕ => some (n : ℝ)) [1, 2, 3]).length =
        max 1 ((([1, 2, 3] : List ℕ).length + 1) / 2)) :=
  ⟨by simp, claim_C6_selection (fun n : ℕ => some (n : ℝ)) [1, 2, 3] (by simp)⟩


/-!
Claim C2: crossover.  The common-pair behaviour holds as claimed, but when
either parent has at most 2 steps the source returns parent 1 outright
instead of a uniformly chosen parent, so the claim is corrected for that
case.
-/

/-- Claim C2, amended: if a common intermediate station pair exists the
child glues a prefix of parent 1 to a suffix of parent 2 at such a pair; if
either parent has at most two steps the result is parent 1; otherwise, with
no common pair, the result is one of the two parents chosen uniformly at
random. -/
theorem claim_C2_crossover (parent1 parent2 : List VisitedStation) (gen : RNG) :
    (commonIndices parent1 parent2 ≠ [] →
      ∃ ij ∈ commonIndices parent1 parent2,
        Route.crossover parent1 parent2 gen =
          parent1.take (ij.1 + 1) ++ parent2.drop (ij.2 + 1)) ∧
    (parent1.length ≤ 2 ∨ parent2.length ≤ 2 →
      Route.crossover parent1 parent2 gen = parent1) ∧
    (2 < parent1.length → 2 < parent2.length → commonIndices parent1 parent2 = [] →
      Route.crossover parent1 parent2 gen = uniformParentChoice parent1 parent2 gen) := by
  refine ⟨?_, ?_, ?_⟩
  · intro hne
    obtain ⟨ij0, hij0⟩ := List.exists_mem_of_ne_nil _ hne
    have hlen : 2 < parent1.length ∧ 2 < parent2.length := by
      rw [commonIndices, List.mem_flatMap] at hij0
      obtain ⟨a, ha, hb⟩ := hij0
      rw [List.mem_range] at ha
      rw [List.mem_filterMap] at hb
      obtain ⟨b, hb2, _⟩ := hb
      rw [List.mem_range] at hb2
      omega
    have hlc : (commonIndices parent1 parent2).length ≠ 0 := by
      intro h0
      exact hne (List.eq_nil_of_length_eq_zero h0)
    have hklt : (gen.nextInt (commonIndices parent1 parent2).length).1 <
        (commonIndices parent1 parent2).length := by
      show gen.ints.headD 0 % (commonIndices parent1 parent2).length < _
      exact Nat.mod_lt _ (by omega)
    refine ⟨(commonIndices parent1 parent2).getD
      (gen.nextInt (commonIndices parent1 parent2).length).1 (0, 0), ?_, ?_⟩
    · rw [List.getD_eq_getElem?_getD, List.getElem?_eq_getElem hklt]
      exact List.getElem_mem _
    · rw [Route.crossover, if_neg (by omega), if_pos hlc]
  · intro hshort
    rw [Route.crossover, if_pos hshort]
  · intro h1 h2 hcom
    rw [Route.crossover, if_neg (by omega)]
    simp only [hcom, List.length_nil, ne_eq, not_true_eq_false, if_false]
    rfl

/-- Claim C2, counterexample: with parents of 2 and 3 steps and no common
station, the source returns parent 1 for every RNG state, while the claim
mandates a uniformly drawn parent; at an RNG state drawing 1 the claim
requires parent 2. -/
theorem claim_C2_counterexample : ¬ C2Claim := by
  intro h
  have h2 := (h fixP1 fixP2 ⟨[1], []⟩).2 (by decide)
  have hcross : Route.crossover fixP1 fixP2 ⟨[1], []⟩ = fixP1 := by
    rw [Route.crossover, if_pos (by decide)]
  have huni : uniformParentChoice fixP1 fixP2 ⟨[1], []⟩ = fixP2 := by
    rw [uniformParentChoice, if_neg (by decide)]
  rw [hcross, huni] at h2
  have hlen := congrArg List.length h2
  simp only [fixP1, fixP2, mkStep, List.length_cons, List.length_nil] at hlen
  exact absurd hlen (by norm_num)

/-- Witness for the amended claim C2 at parents sharing one intermediate
station. -/
theorem claim_C2_witness :
    ∃ ij ∈ commonIndices fixP1w fixP2w,
      Route.crossover fixP1w fixP2w ⟨[0], []⟩ =
        fixP1w.take (ij.1 + 1) ++ fixP2w.drop (ij.2 + 1) :=
  (claim_C2_crossover fixP1w fixP2w ⟨[0], []⟩).1 (by decide)

/-!
Claim C9: the no-transit-route fallback of the coordinate route handler.
-/

theorem hav_equator : calculateHaversineDistance ⟨0, 0⟩ ⟨0, 180⟩ = 6371 * Real.pi := by
  have h1 : ((0 : ℚ) : ℝ) * Real.pi / 180 = 0 := by norm_num
  have h2 : ((180 : ℚ) : ℝ) * Real.pi / 180 = Real.pi := by
    push_cast
    ring
  simp only [calculateHaversineDistance, h1, h2]
  norm_num [Real.sin_pi_div_two, Real.cos_zero, Real.sin_zero]
  rw [atan2, if_neg (by norm_num), if_neg (by norm_num), if_pos (by norm_num)]
  ring

/-- Claim C9: when the GA fan-out yields no transit route, the response is a
direct-walk advisory when the direct haversine distance is under 2 km and a
no-route status otherwise. -/
theorem claim_C9_no_transit_fallback (g : Graph) (userCoords destCoords : Coordinates) :
    (calculateHaversineDistance userCoords destCoords < 2 →
      routeDecision g userCoords destCoords none =
        RouteResponse.directWalk ("No public transport route found")) ∧
    (¬ calculateHaversineDistance userCoords destCoords < 2 →
      routeDecision g userCoords destCoords none = RouteResponse.noRoute) := by
  constructor
  · intro h
    rw [routeDecision]
    exact if_pos h
  · intro h
    rw [routeDecision]
    exact if_neg h

/-- Witness for claim C9: identical coordinates walk (distance 0), antipodal
equator coordinates do not (distance 6371 pi). -/
theorem claim_C9_witness :
    (calculateHaversineDistance ⟨0, 0⟩ ⟨0, 0⟩ < 2 ∧
      routeDecision [] ⟨0, 0⟩ ⟨0, 0⟩ none =
        RouteResponse.directWalk ("No public transport route found")) ∧
    ((¬ calculateHaversineDistance ⟨0, 0⟩ ⟨0, 180⟩ < 2) ∧
      routeDecision [] ⟨0, 0⟩ ⟨0, 180⟩ none = RouteResponse.noRoute) := by
  have h1 : calculateHaversineDistance (⟨0, 0⟩ : Coordinates) ⟨0, 0⟩ < 2 := by
    rw [hav_self]
    norm_num
  have h2 : ¬ calculateHaversineDistance (⟨0, 0⟩ : Coordinates) ⟨0, 180⟩ < 2 := by
    rw [hav_equator]
    have hpi := Real.pi_gt_three
    nlinarith
  exact ⟨⟨h1, (claim_C9_no_transit_fallback [] ⟨0, 0⟩ ⟨0, 0⟩).1 h1⟩,
    ⟨h2, (claim_C9_no_transit_fallback [] ⟨0, 0⟩ ⟨0, 180⟩).2 h2⟩⟩

/-!
Claim C5: the fare.  The banded fare on the summed public segment distances
holds for well-formed routes, but a route whose first station carries the
code `-1` always costs 0 regardless of its public steps, so the claim as
universally stated is corrected.
-/

theorem costLoop_spec (g : Graph) (fid : ℤ) :
    ∀ (rest : List VisitedStation) (prev : VisitedStation) (i : ℕ),
      costStepsOk g fid i prev rest = true →
      costLoop g fid i rest =
        (claimPublicDistance (prev :: rest),
         rest.any fun vs => isPublicTransport vs.line.type) := by
  intro rest
  induction rest with
  | nil =>
    intro prev i _
    simp [costLoop, claimPublicDistance]
  | cons vs rest2 ih =>
    intro prev i hok
    rw [costStepsOk, Bool.and_eq_true] at hok
    obtain ⟨hstep, hrest⟩ := hok
    rw [costLoop, ih vs (i + 1) hrest]
    dsimp only
    by_cases hp : isPublicTransport vs.line.type = true
    · rw [if_pos hp] at hstep
      rw [if_pos hp]
      rw [Bool.and_eq_true, Bool.and_eq_true] at hstep
      obtain ⟨⟨hne1, hne2⟩, hmatch⟩ := hstep
      rw [decide_eq_true_eq] at hne1 hne2
      rcases hs1 : g.findStation
          (if vs.prevStationCode = -1 ∧ i = 1 then fid else vs.prevStationCode) with _ | s1
      · rw [hs1] at hmatch
        simp at hmatch
      rcases hs2 : g.findStation vs.line.toCode with _ | s2
      · rw [hs1, hs2] at hmatch
        simp at hmatch
      rw [hs1, hs2, Bool.and_eq_true, decide_eq_true_eq, decide_eq_true_eq] at hmatch
      obtain ⟨hc1, hc2⟩ := hmatch
      rw [if_neg hne1]
      by_cases heq : (if vs.prevStationCode = -1 ∧ i = 1 then fid else vs.prevStationCode)
          = vs.line.toCode
      · rw [if_neg (by simp [heq])]
        have hs12 : s1 = s2 := by
          rw [heq] at hs1
          rw [hs1] at hs2
          injection hs2
        have hzero : calculateHaversineDistance prev.station.coordinates
            vs.station.coordinates = 0 := by
          rw [← hc1, ← hc2, hs12, hav_self]
        rw [claimPublicDistance, if_pos hp, hzero]
        simp [hp]
      · rw [if_pos ⟨heq, hne1, hne2⟩]
        simp only [hs1, hs2]
        rw [claimPublicDistance, if_pos hp, ← hc1, ← hc2]
        simp [hp, add_comm]
    · have hp2 : isPublicTransport vs.line.type = false := by
        cases h : isPublicTransport vs.line.type
        · rfl
        · exact absurd h hp
      rw [if_neg hp]
      rw [claimPublicDistance, if_neg hp]
      simp [hp2]

/-- Claim C5, amended: a route whose first station has code `-1` costs 0;
for any other route whose public segments' endpoint codes resolve in the
graph to the adjacent steps' stations, the cost is 0 when no step at index
`≥ 1` uses public transport and otherwise the banded fare of the summed
haversine distances between the endpoint stations of the public segments. -/
theorem claim_C5_total_cost (g : Graph) (first : VisitedStation)
    (rest : List VisitedStation) :
    (first.station.code = -1 → Route.getTotalCost g (first :: rest) = 0) ∧
    (first.station.code ≠ -1 →
      costStepsOk g first.station.code 1 first rest = true →
      Route.getTotalCost g (first :: rest) =
        if anyPublicSegment (first :: rest) = true then
          fareFromDistance (claimPublicDistance (first :: rest))
        else 0) := by
  constructor
  · intro h
    rw [Route.getTotalCost]
    dsimp only
    rw [if_pos h]
  · intro hne hok
    rw [Route.getTotalCost]
    dsimp only
    rw [if_neg hne, costLoop_spec g first.station.code rest first 1 hok]
    dsimp only
    cases hany : rest.any fun vs => isPublicTransport vs.line.type
    · simp [anyPublicSegment, hany]
    · simp [anyPublicSegment, hany]

/-- Claim C5, counterexample: a route with a public step whose first station
carries code `-1` costs 0, while the claim's fare table demands a fare of
6. -/
theorem claim_C5_counterexample : ¬ C5Claim := by
  intro h
  have hc := h fixGraphC5 fixRouteC5bad
  have hcost : Route.getTotalCost fixGraphC5 fixRouteC5bad = 0 := by
    rw [fixRouteC5bad, Route.getTotalCost]
    dsimp only
    norm_num
  have hpub : anyPublicStep fixRouteC5bad = true := by decide
  have hdist : claimPublicDistance fixRouteC5bad = 0 := by
    simp [fixRouteC5bad, claimPublicDistance, lineBus10, isPublicTransport, hav_self]
  rw [hcost, hpub, hdist, if_pos rfl] at hc
  rw [fareFromDistance, if_pos (by norm_num : (0 : ℝ) ≤ 15)] at hc
  exact absurd hc (by norm_num)

/-- Witness for the amended claim C5 at a concrete one-segment bus route. -/
theorem claim_C5_witness :
    (fixStepC5a.station.code ≠ -1 ∧
      costStepsOk fixGraphC5 fixStepC5a.station.code 1 fixStepC5a [fixStepC5b] = true) ∧
    Route.getTotalCost fixGraphC5 (fixStepC5a :: [fixStepC5b]) =
      (if anyPublicSegment (fixStepC5a :: [fixStepC5b]) = true then
        fareFromDistance (claimPublicDistance (fixStepC5a :: [fixStepC5b]))
       else 0) :=
  ⟨⟨by decide, by decide⟩,
   (claim_C5_total_cost fixGraphC5 fixStepC5a [fixStepC5b]).2 (by decide) (by decide)⟩

/-!
Claim C1: fitness.  The shape of the score matches the claim for well-formed
routes, but a valid route whose score is at most machine epsilon yields
`DBL_MAX`, not 0, so the claim is corrected.
-/

theorem isValid_parts (g : Graph) (s d : ℤ) (first : VisitedStation)
    (rest : List VisitedStation)
    (hv : Route.isValid g s d (first :: rest) = true) :
    ∃ sStart, g.findStation s = some sStart ∧ stationEq first.station sStart = true ∧
      (rest = [] → s = d) ∧
      (∀ r2 rest2, rest = r2 :: rest2 →
        ∃ sDest, g.findStation d = some sDest ∧
          stationEq ((r2 :: rest2).getLast (List.cons_ne_nil _ _)).station sDest = true) := by
  rw [Route.isValid.eq_def] at hv
  dsimp only at hv
  rcases hfs : g.findStation s with _ | sStart
  · rw [hfs] at hv
    exact absurd hv (by simp)
  rw [hfs] at hv
  dsimp only at hv
  by_cases h1 : stationEq first.station sStart = true
  case neg =>
    rw [if_neg h1] at hv
    exact absurd hv (by simp)
  rw [if_pos h1] at hv
  by_cases h2 : first.prevStationCode = -1
  case neg =>
    rw [if_neg h2] at hv
    exact absurd hv (by simp)
  rw [if_pos h2] at hv
  refine ⟨sStart, rfl, h1, ?_, ?_⟩
  · intro hrest
    subst hrest
    exact of_decide_eq_true hv
  · intro r2 rest2 hrest
    subst hrest
    dsimp only at hv
    by_cases h3 : ((r2 :: rest2).getLast (List.cons_ne_nil _ _)).line.toCode = d
    case neg =>
      rw [if_neg h3] at hv
      exact absurd hv (by simp)
    rw [if_pos h3] at hv
    rcases hfd : g.findStation d with _ | sDest
    · rw [hfd] at hv
      exact absurd hv (by simp)
    rw [hfd] at hv
    dsimp only at hv
    by_cases h4 : stationEq ((r2 :: rest2).getLast (List.cons_ne_nil _ _)).station sDest = true
    case neg =>
      rw [if_neg h4] at hv
      exact absurd hv (by simp)
    exact ⟨sDest, rfl, h4⟩

theorem walkTimeLoop_spec (g : Graph) (startId : ℤ) :
    ∀ (rest : List VisitedStation) (prev : VisitedStation) (i : ℕ),
      i ≠ 0 → walkStepsOk g prev rest = true →
      walkTimeLoop g startId i rest = claimInternalWalkSum (prev :: rest) := by
  intro rest
  induction rest with
  | nil =>
    intro prev i _ _
    simp [walkTimeLoop, claimInternalWalkSum]
  | cons vs rest2 ih =>
    intro prev i hi hok
    rw [walkStepsOk, Bool.and_eq_true] at hok
    obtain ⟨hstep, hrest⟩ := hok
    rw [walkTimeLoop, ih vs (i + 1) (by omega) hrest, claimInternalWalkSum]
    congr 1
    by_cases hw : vs.line.id = "Walk"
    · rw [if_pos hw] at hstep ⊢
      rw [if_pos hw]
      rw [Bool.and_eq_true, decide_eq_true_eq] at hstep
      obtain ⟨hne, hmatch⟩ := hstep
      rcases hfp : g.findStation vs.prevStationCode with _ | sp
      · rw [hfp] at hmatch
        simp at hmatch
      rw [hfp, decide_eq_true_eq] at hmatch
      rw [if_neg (not_or.mpr ⟨hi, hne⟩)]
      dsimp only
      rw [hmatch]
    · rw [if_neg hw, if_neg hw]

theorem getFitness_valid (g : Graph) (startId destinationId : ℤ)
    (userCoords destCoords : Coordinates) (first : VisitedStation)
    (rest : List VisitedStation)
    (hv : Route.isValid g startId destinationId (first :: rest) = true)
    (hw : fitnessWalkHyp g (first :: rest) = true) :
    Route.getFitness g startId destinationId userCoords destCoords (first :: rest) =
      if claimScore g startId destinationId userCoords destCoords (first :: rest) ≤
          DOUBLE_EPSILON
      then DOUBLE_MAX
      else 1 / claimScore g startId destinationId userCoords destCoords (first :: rest) := by
  obtain ⟨sStart, hfs, heqS, hnil, hcons⟩ := isValid_parts g _ _ first rest hv
  rw [fitnessWalkHyp, Bool.and_eq_true, decide_eq_true_eq] at hw
  obtain ⟨hwid, hwok⟩ := hw
  have hFinal : (if ((first :: rest).getLast (List.cons_ne_nil _ _)).station.code =
        destinationId then
      Route.calculateWalkTime
        ((first :: rest).getLast (List.cons_ne_nil _ _)).station.coordinates destCoords
    else
      match g.findStation destinationId with
      | some s2 => Route.calculateWalkTime s2.coordinates destCoords
      | none => 0) =
      Route.calculateWalkTime
        ((first :: rest).getLast (List.cons_ne_nil _ _)).station.coordinates destCoords := by
    by_cases hcode : ((first :: rest).getLast (List.cons_ne_nil _ _)).station.code =
        destinationId
    · rw [if_pos hcode]
    · rw [if_neg hcode]
      cases rest with
      | nil =>
        have hsd : startId = destinationId := hnil rfl
        have hfd : g.findStation destinationId = some sStart := by
          rw [← hsd]
          exact hfs
        rw [hfd]
        dsimp only
        rw [← stationEq_coords heqS]
        rfl
      | cons r2 rest2 =>
        obtain ⟨sDest, hfd, heqD⟩ := hcons r2 rest2 rfl
        rw [hfd]
        dsimp only
        rw [← stationEq_coords heqD]
        rw [List.getLast_cons (List.cons_ne_nil r2 rest2)]
  have hWalkSum : walkTimeLoop g startId 0 (first :: rest) =
      claimInternalWalkSum (first :: rest) := by
    rw [walkTimeLoop]
    rw [if_neg hwid]
    cases rest with
    | nil => simp [walkTimeLoop, claimInternalWalkSum]
    | cons v2 rest2 =>
      rw [walkTimeLoop_spec g startId (v2 :: rest2) first 1 (by omega) hwok]
      rw [zero_add]
  have key : ∀ x y : ℝ, x = y →
      (if x ≤ DOUBLE_EPSILON then DOUBLE_MAX else 1 / x) =
      (if y ≤ DOUBLE_EPSILON then DOUBLE_MAX else 1 / y) := by
    intro x y h
    rw [h]
  rw [Route.getFitness]
  try dsimp only
  rw [if_pos hv]
  try dsimp only
  rw [hFinal, hWalkSum]
  apply key
  have hclFinal : claimFinalWalk destCoords (first :: rest) =
      Route.calculateWalkTime
        ((first :: rest).getLast (List.cons_ne_nil _ _)).station.coordinates destCoords := by
    rw [claimFinalWalk, List.getLast?_eq_getLast (first :: rest) (List.cons_ne_nil _ _)]
  have hclInit : claimInitialWalk userCoords (first :: rest) =
      Route.calculateWalkTime userCoords first.station.coordinates := by
    rw [claimInitialWalk]
    rfl
  rw [claimScore]
  try dsimp only
  rw [hclFinal, hclInit]
  ring

theorem getFitness_invalid (g : Graph) (startId destinationId : ℤ)
    (userCoords destCoords : Coordinates) (r : List VisitedStation)
    (hv : Route.isValid g startId destinationId r = false) :
    Route.getFitness g startId destinationId userCoords destCoords r = 0 := by
  match r with
  | [] => rfl
  | first :: rest =>
    rw [Route.getFitness]
    try dsimp only
    rw [if_neg (by rw [hv]; simp)]

/-- Claim C1, amended: fitness is 0 for invalid routes; for valid routes of
well-formed shape (first step not a Walk step, internal Walk steps resolving
in the graph), fitness is `1/score` when the claim's score exceeds machine
epsilon and `DBL_MAX` (not 0) when the score is at most machine epsilon,
with `score = base + total_walk + 0.1*cost + 45*transfers` exactly as the
claim defines it. -/
theorem claim_C1_fitness (g : Graph) (startId destinationId : ℤ)
    (userCoords destCoords : Coordinates) (r : List VisitedStation) :
    (Route.isValid g startId destinationId r = false →
      Route.getFitness g startId destinationId userCoords destCoords r = 0) ∧
    (Route.isValid g startId destinationId r = true →
      fitnessWalkHyp g r = true →
      Route.getFitness g startId destinationId userCoords destCoords r =
        if claimScore g startId destinationId userCoords destCoords r ≤ DOUBLE_EPSILON
        then DOUBLE_MAX
        else 1 / claimScore g startId destinationId userCoords destCoords r) := by
  constructor
  · intro hv
    exact getFitness_invalid g startId destinationId userCoords destCoords r hv
  · intro hv hw
    match r with
    | [] => exact absurd hv (by simp [Route.isValid])
    | first :: rest =>
      exact getFitness_valid g startId destinationId userCoords destCoords first rest hv hw

theorem claimScore_fix : claimScore fixGraphC1 5 5 ⟨0, 0⟩ ⟨0, 0⟩ fixRouteC1 = 0 := by
  have hInit : claimInitialWalk ⟨0, 0⟩ fixRouteC1 = 0 := by
    rw [fixRouteC1, claimInitialWalk]
    dsimp only [List.head?]
    exact calculateWalkTime_self _
  have hFin : claimFinalWalk ⟨0, 0⟩ fixRouteC1 = 0 := by
    rw [fixRouteC1, claimFinalWalk]
    dsimp only [List.getLast?]
    exact calculateWalkTime_self _
  have hseg : calculateEstimatedSegmentTime (some ⟨5, "A", ⟨0, 0⟩, []⟩)
      ⟨⟨5, "A", ⟨0, 0⟩, []⟩, ⟨"Start", 5, 0, 0, .Walk, []⟩, -1⟩ = 0 := by
    simp [calculateEstimatedSegmentTime, isPublicTransport, hav_self]
  have hT : Route.getTotalTime fixGraphC1 5 fixRouteC1 = 0 := by
    rw [fixRouteC1, Route.getTotalTime]
    try dsimp only
    have hlook : Graph.findStation fixGraphC1 5 = some ⟨5, "A", ⟨0, 0⟩, []⟩ := rfl
    rw [hlook]
    try dsimp only
    rw [timeLoop, timeLoop, hseg]
    norm_num
  have hC : Route.getTotalCost fixGraphC1 fixRouteC1 = 0 := by
    rw [fixRouteC1, Route.getTotalCost]
    try dsimp only
    rw [if_neg (by norm_num), costLoop]
    norm_num
  have hS : claimInternalWalkSum fixRouteC1 = 0 := by
    rw [fixRouteC1]
    rfl
  have htr : Route.getTransferCount fixRouteC1 = 0 := by decide
  rw [claimScore]
  try dsimp only
  rw [hInit, hFin, hT, hC, hS, htr]
  norm_num

/-- Claim C1, counterexample: the single-step route staying at its start
station with all coordinates equal is valid and has score 0; the source
returns `DBL_MAX` where the claim requires 0. -/
theorem claim_C1_counterexample : ¬ C1Claim := by
  intro h
  have hval : Route.isValid fixGraphC1 5 5 fixRouteC1 = true := by decide
  have hfit : Route.getFitness fixGraphC1 5 5 ⟨0, 0⟩ ⟨0, 0⟩ fixRouteC1 =
      (if claimScore fixGraphC1 5 5 ⟨0, 0⟩ ⟨0, 0⟩ fixRouteC1 ≤ DOUBLE_EPSILON
       then DOUBLE_MAX
       else 1 / claimScore fixGraphC1 5 5 ⟨0, 0⟩ ⟨0, 0⟩ fixRouteC1) :=
    getFitness_valid fixGraphC1 5 5 ⟨0, 0⟩ ⟨0, 0⟩
      ⟨⟨5, "A", ⟨0, 0⟩, []⟩, ⟨"Start", 5, 0, 0, .Walk, []⟩, -1⟩ []
      (by decide) (by decide)
  have hclaim := h fixGraphC1 5 5 ⟨0, 0⟩ ⟨0, 0⟩ fixRouteC1
  rw [claimScore_fix] at hfit hclaim
  rw [if_pos (le_of_lt DOUBLE_EPSILON_pos)] at hfit
  rw [if_neg (by
    intro hc
    exact absurd hc.2 (by
      have := DOUBLE_EPSILON_pos
      intro hlt
      linarith))] at hclaim
  rw [hclaim] at hfit
  exact absurd hfit (ne_of_lt DOUBLE_MAX_pos)

/-- Witness for the amended claim C1 at the single-step fixture route. -/
theorem claim_C1_witness :
    (Route.isValid fixGraphC1 5 5 fixRouteC1 = true ∧
      fitnessWalkHyp fixGraphC1 fixRouteC1 = true) ∧
    Route.getFitness fixGraphC1 5 5 ⟨0, 0⟩ ⟨0, 0⟩ fixRouteC1 =
      (if claimScore fixGraphC1 5 5 ⟨0, 0⟩ ⟨0, 0⟩ fixRouteC1 ≤ DOUBLE_EPSILON
       then DOUBLE_MAX
       else 1 / claimScore fixGraphC1 5 5 ⟨0, 0⟩ ⟨0, 0⟩ fixRouteC1) :=
  ⟨⟨by decide, by decide⟩,
   (claim_C1_fitness fixGraphC1 5 5 ⟨0, 0⟩ ⟨0, 0⟩ fixRouteC1).2 (by decide) (by decide)⟩


/-!
Claim C7: termination of the BFS backward path reconstruction.
-/

theorem lookup_cons_self {β : Type} (k : ℤ) (n : β) (t : List (ℤ × β)) :
    List.lookup k ((k, n) :: t) = some n := by
  simp [List.lookup]

theorem lookup_cons_of_ne {β : Type} (a k : ℤ) (n : β) (t : List (ℤ × β))
    (h : a ≠ k) : List.lookup a ((k, n) :: t) = List.lookup a t := by
  simp [List.lookup, beq_eq_false_iff_ne.mpr h]

theorem lookup_isSome_mem {β : Type} (k : ℤ) (l : List (ℤ × β))
    (h : (List.lookup k l).isSome = true) : k ∈ l.map Prod.fst := by
  induction l with
  | nil => simp [List.lookup] at h
  | cons e rest ih =>
    rcases e with ⟨ek, eb⟩
    by_cases he : k = ek
    · subst he
      simp
    · rw [lookup_cons_of_ne k ek eb rest he] at h
      simp [ih h]

theorem lookup_isNone_not_mem (k : ℤ) (v : List (ℤ × BfsNode))
    (h : (List.lookup k v).isNone = true) : k ∉ keysOf v := by
  induction v with
  | nil => simp [keysOf]
  | cons e rest ih =>
    rcases e with ⟨ek, en⟩
    by_cases he : k = ek
    · subst he
      rw [lookup_cons_self] at h
      simp at h
    · rw [lookup_cons_of_ne k ek en rest he] at h
      simp only [keysOf, List.map_cons, List.mem_cons, not_or]
      exact ⟨he, ih h⟩

theorem lookup_of_first {β : Type} (k : ℤ) (n : β) (pre suf : List (ℤ × β))
    (h : k ∉ pre.map Prod.fst) :
    List.lookup k (pre ++ (k, n) :: suf) = some n := by
  induction pre with
  | nil => exact lookup_cons_self k n suf
  | cons e rest ih =>
    rcases e with ⟨ek, eb⟩
    simp only [List.map_cons, List.mem_cons, not_or] at h
    rw [List.cons_append, lookup_cons_of_ne k ek eb _ h.1]
    exact ih h.2

theorem mem_keys_first (k : ℤ) (v : List (ℤ × BfsNode)) (h : k ∈ keysOf v) :
    ∃ pre n suf, v = pre ++ (k, n) :: suf ∧ k ∉ keysOf pre := by
  induction v with
  | nil => simp [keysOf] at h
  | cons e rest ih =>
    rcases e with ⟨ek, en⟩
    by_cases he : ek = k
    · subst he
      exact ⟨[], en, rest, rfl, by simp [keysOf]⟩
    · have h2 : k ∈ keysOf rest := by
        rcases (by simpa [keysOf] using h : k = ek ∨ k ∈ keysOf rest) with h1 | h1
        · exact absurd h1.symm he
        · exact h1
      obtain ⟨pre, n, suf, heq, hnot⟩ := ih h2
      refine ⟨(ek, en) :: pre, n, suf, by rw [heq, List.cons_append], ?_⟩
      simp only [keysOf, List.map_cons, List.mem_cons, not_or]
      exact ⟨fun hk => he hk.symm, hnot⟩

theorem chained_decomp {v : List (ℤ × BfsNode)} (hc : Chained v) :
    ∀ (pre : List (ℤ × BfsNode)) (x : ℤ × BfsNode) (suf : List (ℤ × BfsNode)),
      v = pre ++ x :: suf →
      x.2.parentCode = -1 ∨ x.2.parentCode ∈ keysOf pre := by
  induction hc with
  | nil =>
    intro pre x suf h
    exact absurd h (by simp)
  | snoc w y hw hy ih =>
    intro pre x suf h
    rcases suf.eq_nil_or_concat with rfl | ⟨s2, z, rfl⟩
    · have hlen : w.length = pre.length := by
        have hl := congrArg List.length h
        simp at hl
        omega
      obtain ⟨h1, h2⟩ := List.append_inj h hlen
      have hx : y = x := by
        injection h2
      subst hx
      rcases hy with hy1 | hy1
      · exact Or.inl hy1
      · exact Or.inr (h1 ▸ hy1)
    · rw [List.concat_eq_append] at h
      have h3 : w ++ [y] = (pre ++ x :: s2) ++ [z] := by
        rw [h]
        simp
      have hlen : w.length = (pre ++ x :: s2).length := by
        have hl := congrArg List.length h3
        simp at hl
        simp only [List.length_append, List.length_cons]
        omega
      obtain ⟨h1, _⟩ := List.append_inj h3 hlen
      exact ih pre x s2 h1

theorem expandLines_inv (g : Graph) (c : ℤ) :
    ∀ (lines : List TransportationLine) (q : List ℤ) (v : List (ℤ × BfsNode)),
      Chained v → (keysOf v).Nodup → (∀ a ∈ q, a ∈ keysOf v) →
      (∀ k ∈ keysOf v, g.hasStation k = true) → c ∈ keysOf v →
      Chained (expandLines g c lines q v).2 ∧
      (keysOf (expandLines g c lines q v).2).Nodup ∧
      (∀ a ∈ (expandLines g c lines q v).1, a ∈ keysOf (expandLines g c lines q v).2) ∧
      (∀ k ∈ keysOf (expandLines g c lines q v).2, g.hasStation k = true) := by
  intro lines
  induction lines with
  | nil =>
    intro q v h1 h2 h3 h4 _
    exact ⟨h1, h2, h3, h4⟩
  | cons l rest ih =>
    intro q v h1 h2 h3 h4 hc
    rw [expandLines]
    by_cases hg : (g.hasStation l.toCode && (List.lookup l.toCode v).isNone) = true
    · rw [if_pos hg]
      rw [Bool.and_eq_true] at hg
      obtain ⟨hgs, hlk⟩ := hg
      have hnotmem : l.toCode ∉ keysOf v := lookup_isNone_not_mem _ _ hlk
      have hkeys : keysOf (v ++ [(l.toCode, ⟨l.toCode, c, l.id, l.toCode⟩)]) =
          keysOf v ++ [l.toCode] := by
        simp [keysOf]
      apply ih
      · exact Chained.snoc v _ h1 (Or.inr hc)
      · rw [hkeys]
        simp [List.nodup_append, h2, hnotmem]
      · intro a ha
        rw [hkeys]
        rcases List.mem_append.mp ha with ha1 | ha1
        · exact List.mem_append_left _ (h3 a ha1)
        · simp at ha1
          subst ha1
          simp
      · intro k hk
        rw [hkeys] at hk
        rcases List.mem_append.mp hk with hk1 | hk1
        · exact h4 k hk1
        · simp at hk1
          subst hk1
          exact hgs
      · rw [hkeys]
        exact List.mem_append_left _ hc
    · rw [if_neg hg]
      exact ih q v h1 h2 h3 h4 hc

theorem bfsLoop_inv (g : Graph) (endCode : ℤ) :
    ∀ (fuel : ℕ) (q : List ℤ) (v out : List (ℤ × BfsNode)),
      Chained v → (keysOf v).Nodup → (∀ a ∈ q, a ∈ keysOf v) →
      (∀ k ∈ keysOf v, g.hasStation k = true) →
      bfsLoop g endCode fuel q v = some out →
      Chained out ∧ (keysOf out).Nodup ∧ (∀ k ∈ keysOf out, g.hasStation k = true) ∧
        endCode ∈ keysOf out := by
  intro fuel
  induction fuel with
  | zero =>
    intro q v out _ _ _ _ h
    exact absurd h (by simp [bfsLoop])
  | succ m ih =>
    intro q v out h1 h2 h3 h4 hrun
    match q with
    | [] => exact absurd hrun (by simp [bfsLoop])
    | c :: q2 =>
      rw [bfsLoop] at hrun
      by_cases hce : c = endCode
      · rw [if_pos hce] at hrun
        have hout : v = out := by
          injection hrun
        subst hout
        refine ⟨h1, h2, h4, ?_⟩
        rw [← hce]
        exact h3 c (List.mem_cons_self _ _)
      · rw [if_neg hce] at hrun
        have hinv := expandLines_inv g c (g.getLinesFrom c) q2 v h1 h2
          (fun a ha => h3 a (List.mem_cons_of_mem _ ha)) h4
          (h3 c (List.mem_cons_self _ _))
        exact ih _ _ out hinv.1 hinv.2.1 hinv.2.2.1 hinv.2.2.2 hrun

theorem reconstructPath_isSome (g : Graph) (v : List (ℤ × BfsNode)) (startCode : ℤ)
    (hch : Chained v) :
    ∀ (fuel : ℕ) (trace : ℤ) (acc : List VisitedStation),
      (trace = -1 ∨ ∃ pre n suf, v = pre ++ (trace, n) :: suf ∧ trace ∉ keysOf pre ∧
        pre.length < fuel) →
      (reconstructPath g v startCode fuel trace acc).isSome = true := by
  intro fuel
  induction fuel with
  | zero =>
    intro trace acc h
    rcases h with rfl | ⟨pre, n, suf, _, _, hlt⟩
    · simp [reconstructPath]
    · omega
  | succ m ih =>
    intro trace acc h
    rcases h with rfl | ⟨pre, n, suf, heq, hpre, hlt⟩
    · simp [reconstructPath]
    rw [reconstructPath]
    by_cases htm : trace = -1
    · rw [if_pos htm]
      simp
    rw [if_neg htm]
    have hlk : List.lookup trace v = some n := by
      rw [heq]
      exact lookup_of_first trace n pre suf hpre
    rw [hlk]
    cases hfs : g.findStation trace with
    | none => simp
    | some st =>
      dsimp only
      cases hline : (if n.parentCode = -1 then
          some (⟨"Start", startCode, 0, 0, .Walk, []⟩ : TransportationLine)
        else findLineInGraph g n.parentCode n.lineIdFromParent n.lineToFromParent) with
      | none => simp
      | some line =>
        dsimp only
        by_cases hsafe : Graph.getStationCount g * 2 < acc.length + 1
        · rw [if_pos hsafe]
          simp
        rw [if_neg hsafe]
        rcases chained_decomp hch pre (trace, n) suf heq with hpar | hpar
        · exact ih n.parentCode _ (Or.inl hpar)
        · obtain ⟨pre2, n2, suf2, heq2, hpre2⟩ := mem_keys_first n.parentCode pre hpar
          refine ih n.parentCode _ (Or.inr ⟨pre2, n2, suf2 ++ (trace, n) :: suf, ?_, hpre2, ?_⟩)
          · rw [heq, heq2]
            simp
          · have hp : pre.length = pre2.length + suf2.length + 1 := by
              rw [heq2, List.length_append, List.length_cons]
              omega
            omega

theorem visited_length_le (g : Graph) (v : List (ℤ × BfsNode))
    (h2 : (keysOf v).Nodup) (h4 : ∀ k ∈ keysOf v, g.hasStation k = true) :
    v.length ≤ g.length := by
  have hsub : ∀ k ∈ (keysOf v).toFinset, k ∈ (g.map Prod.fst).toFinset := by
    intro k hk
    rw [List.mem_toFinset] at hk ⊢
    have hh := h4 k hk
    rw [Graph.hasStation, Graph.findStation] at hh
    exact lookup_isSome_mem k g hh
  calc v.length = (keysOf v).length := by
        rw [keysOf, List.length_map]
  _ = (keysOf v).toFinset.card := (List.toFinset_card_of_nodup h2).symm
  _ ≤ (g.map Prod.fst).toFinset.card := Finset.card_le_card hsub
  _ ≤ (g.map Prod.fst).length := List.toFinset_card_le _
  _ = g.length := List.length_map _ _

/-- Claim C7: whenever the BFS search reaches the destination, the backward
path reconstruction (chasing parent codes from the destination) exits within
`station_count + 5` iterations: the reconstruction loop run with that much
fuel never exhausts it. -/
theorem claim_C7_reconstruction (g : Graph) (startCode endCode : ℤ)
    (v : List (ℤ × BfsNode))
    (hbfs : bfsSearch g startCode endCode = some v) :
    (reconstructPath g v startCode (Graph.getStationCount g + 5) endCode []).isSome
      = true := by
  rw [bfsSearch] at hbfs
  by_cases hg : (g.hasStation startCode && g.hasStation endCode) = true
  case neg =>
    rw [if_neg hg] at hbfs
    exact absurd hbfs (by simp)
  rw [if_pos hg] at hbfs
  rw [Bool.and_eq_true] at hg
  have hinit1 : Chained [(startCode, ⟨startCode, -1, "Start", startCode⟩)] := by
    have hs := Chained.snoc [] (startCode, ⟨startCode, -1, "Start", startCode⟩)
      Chained.nil (Or.inl rfl)
    simpa using hs
  have hout := bfsLoop_inv g endCode (Graph.getStationCount g + 2) [startCode]
    [(startCode, ⟨startCode, -1, "Start", startCode⟩)] v hinit1
    (by simp [keysOf])
    (by
      intro a ha
      simp at ha
      subst ha
      simp [keysOf])
    (by
      intro k hk
      simp [keysOf] at hk
      subst hk
      exact hg.1)
    hbfs
  obtain ⟨hch, hnd, hhas, hmem⟩ := hout
  obtain ⟨pre, n, suf, heq, hpre⟩ := mem_keys_first endCode v hmem
  apply reconstructPath_isSome g v startCode hch
  refine Or.inr ⟨pre, n, suf, heq, hpre, ?_⟩
  have hvlen : v.length ≤ g.length := visited_length_le g v hnd hhas
  have hplt : pre.length < v.length := by
    rw [heq, List.length_append, List.length_cons]
    omega
  rw [Graph.getStationCount]
  omega

/-- Witness for claim C7 on a concrete two-station graph. -/
theorem claim_C7_witness :
    bfsSearch fixGraphC7 1 2 = some fixVisitedC7 ∧
    (reconstructPath fixGraphC7 fixVisitedC7 1 (Graph.getStationCount fixGraphC7 + 5) 2
      []).isSome = true :=
  ⟨by decide, claim_C7_reconstruction fixGraphC7 1 2 fixVisitedC7 (by decide)⟩

end Routify
